import Mathlib

/-!
# product-service: a shallow embedding of `services/product-service/main.go`

The service is a thin HTTP layer over a DynamoDB table.  The embedding has four
layers, each following the Go source:

* Go values: `Product`, with `float64` and `int` fields represented by the exact
  decimal value they denote (`Decimal`, `Int`) and well-formedness predicates
  `IsFloat64` / `IsInt64`;
* the attribute encoding of `dynamodbattribute` (`MarshalMap`, `UnmarshalMap`,
  `UnmarshalListOfMaps`) and of the hand-written update expression
  (`fmt.Sprintf("%f", ..)`, `fmt.Sprintf("%d", ..)`);
* the table behind `db` (`PutItem`, `GetItem`, `Scan`, `UpdateItem`,
  `DeleteItem`), a list of items keyed by the `productId` attribute.  Every call
  takes `fault : Option String`: `some e` means the call returns the error `e`
  for a reason other than its condition expression (network, throttling,
  request validation by the store), and leaves the table as it was;
* the handlers, which take the values the Go code reads from its surroundings
  (the outcome of `ShouldBindJSON`, the path parameter, `uuid.New()`,
  `time.Now()`) as arguments and return the response together with the table
  after the call.
-/

namespace ProductService

/-! ## Numbers -/

/-- A decimal number `coef / 10 ^ scale`: what a DynamoDB number attribute holds,
and the exact value of a finite `float64`. -/
structure Decimal where
  coef : Int
  scale : Nat
deriving DecidableEq

/-- Strip trailing zeros after the decimal point. -/
def Decimal.normalizeAux (c : Int) : Nat → Decimal
  | 0 => ⟨c, 0⟩
  | s + 1 => if c % 10 = 0 then Decimal.normalizeAux (c / 10) s else ⟨c, s + 1⟩

/-- The representation of a decimal value with the smallest scale. -/
def Decimal.normalize (x : Decimal) : Decimal := Decimal.normalizeAux x.coef x.scale

/-- The quotient `x / y` rounded to the nearest natural number, ties to even. -/
def roundHalfEven (x y : Nat) : Nat :=
  let q := x / y
  let r := x % y
  if 2 * r < y then q
  else if y < 2 * r then q + 1
  else if q % 2 = 0 then q else q + 1

/-- Number of binary digits of `n`, by repeated halving (`fuel` bounds the loop). -/
def bitLengthAux : Nat → Nat → Nat
  | 0, _ => 0
  | fuel + 1, n => if n = 0 then 0 else bitLengthAux fuel (n / 2) + 1

/-- Number of binary digits of `n` (`0` for `0`). -/
def bitLength (n : Nat) : Nat := bitLengthAux n n

/-- The integer `e` with `2 ^ e ≤ n / d < 2 ^ (e + 1)`, for positive `n` and `d`. -/
def floorLog2Quot (n d : Nat) : Int :=
  let k : Int := (bitLength n : Int) - (bitLength d : Int)
  if d * 2 ^ k.toNat ≤ n * 2 ^ (-k).toNat then k else k - 1

/-- Library function `strconv.ParseFloat(s, 64)` on the decimal denoted by `s`: the nearest
binary64 value, ties to even, given by its exact decimal expansion; `none` when
the result is out of range (Go returns `±Inf` with `ErrRange`).  Negative zero
is identified with zero. -/
def roundFloat64 (x : Decimal) : Option Decimal :=
  let n := x.coef.natAbs
  let d := 10 ^ x.scale
  if n = 0 then some ⟨0, 0⟩ else
  let e := floorLog2Quot n d
  let E : Int := max e (-1022) - 52
  let m := roundHalfEven (n * 2 ^ (-E).toNat) (d * 2 ^ E.toNat)
  if 1024 < bitLength m + E.toNat then none
  else some (Decimal.normalize
    ⟨x.coef.sign * (m * 2 ^ E.toNat * 5 ^ (-E).toNat : Nat), (-E).toNat⟩)

/-- The decimals that are finite `float64` values: those that binary64 rounding
leaves unchanged. -/
def IsFloat64 (x : Decimal) : Prop := roundFloat64 x = some x

instance (x : Decimal) : Decidable (IsFloat64 x) := by
  unfold IsFloat64; infer_instance

/-- The range of Go's `int` on a 64-bit platform. -/
def IsInt64 (i : Int) : Prop := -9223372036854775808 ≤ i ∧ i ≤ 9223372036854775807

instance (i : Int) : Decidable (IsInt64 i) := by
  unfold IsInt64; infer_instance

/-- Number of decimal digits of `n`, by repeated division (`fuel` bounds the loop). -/
def decimalLengthAux : Nat → Nat → Nat
  | 0, _ => 0
  | fuel + 1, n => if n = 0 then 0 else decimalLengthAux fuel (n / 10) + 1

/-- Number of decimal digits of `n` (`0` for `0`). -/
def decimalLength (n : Nat) : Nat := decimalLengthAux n n

/-- The decimal `c * 10 ^ k / 10 ^ s`. -/
def Decimal.ofShifted (c : Int) (k s : Nat) : Decimal :=
  if k ≤ s then ⟨c, s - k⟩ else ⟨c * 10 ^ (k - s), 0⟩

/-- The decimals with at most `n` significant digits next to `x`, below and
above, the one closer to `x` first. -/
def sigCandidates (n : Nat) (x : Decimal) : List Decimal :=
  let a := x.coef.natAbs
  let len := decimalLength a
  if len ≤ n then [x.normalize] else
  let k := len - n
  let lo := Decimal.ofShifted (x.coef.sign * (a / 10 ^ k : Nat)) k x.scale
  let hi := Decimal.ofShifted (x.coef.sign * (a / 10 ^ k + 1 : Nat)) k x.scale
  if 2 * (a % 10 ^ k) ≤ 10 ^ k then [lo.normalize, hi.normalize] else [hi.normalize, lo.normalize]

/-- Library function `strconv.FormatFloat(f, 'f', -1, 64)`, the number text `dynamodbattribute`
writes for a `float64`: the decimal with the fewest significant digits that
`ParseFloat` reads back as `f` (17 digits always suffice; the exact expansion is
the fallback of the search). -/
def formatShortest (f : Decimal) : Decimal :=
  ((List.range 17).findSome? fun i =>
    (sigCandidates (i + 1) f).find? fun d => decide (roundFloat64 d = some f)).getD f

/-- Library function `fmt.Sprintf("%f", f)`: `f` rounded to six digits after the decimal point,
ties to even. -/
def formatF6 (f : Decimal) : Decimal :=
  if f.scale ≤ 6 then ⟨f.coef * 10 ^ (6 - f.scale), 6⟩
  else ⟨f.coef.sign * (roundHalfEven f.coef.natAbs (10 ^ (f.scale - 6)) : Nat), 6⟩

/-- Library function `strconv.ParseInt(s, 10, 64)` on a number returned by the store, which prints
integers without a fractional part: the integer value, or `none` when the number
is not an integer or does not fit in 64 bits. -/
def parseInt64 (x : Decimal) : Option Int :=
  if x.coef % (10 ^ x.scale : Nat) = 0 then
    let v := x.coef / (10 ^ x.scale : Nat)
    if IsInt64 v then some v else none
  else none

/-! ## Time -/

/-- A wall-clock instant as returned by `time.Now()`: nanoseconds since the Unix
epoch, for clocks not set before 1970. -/
abbrev Time := Nat

/-- Proleptic Gregorian date `(year, month, day)` of the day `z` days after
1970-01-01. -/
def civilFromDays (z : Nat) : Nat × Nat × Nat :=
  let z := z + 719468
  let era := z / 146097
  let doe := z % 146097
  let yoe := (doe - doe / 1460 + doe / 36524 - doe / 146096) / 365
  let doy := doe - (365 * yoe + yoe / 4 - yoe / 100)
  let mp := (5 * doy + 2) / 153
  let d := doy - (153 * mp + 2) / 5 + 1
  let m := if mp < 10 then mp + 3 else mp - 9
  let y := yoe + era * 400
  (if m ≤ 2 then y + 1 else y, m, d)

/-- The ASCII digit for `d % 10`. -/
def digitChar (d : Nat) : Char := Char.ofNat (48 + d % 10)

/-- Two decimal digits, zero padded. -/
def digits2 (n : Nat) : List Char := [digitChar (n / 10), digitChar n]

/-- Four decimal digits, zero padded. -/
def digits4 (n : Nat) : List Char :=
  [digitChar (n / 1000), digitChar (n / 100), digitChar (n / 10), digitChar n]

/-- The year as Go prints it: at least four digits, zero padded. -/
def yearDigits (y : Nat) : List Char :=
  (if y < 10000 then [] else Nat.toDigits 10 (y / 10000)) ++ digits4 y

/-- Library call `t.UTC().Format(time.RFC3339)`: `2006-01-02T15:04:05Z`, whole seconds. -/
def formatRFC3339 (t : Time) : String :=
  let secs := t / 1000000000
  let date := civilFromDays (secs / 86400)
  let rem := secs % 86400
  String.mk (yearDigits date.1 ++ '-' :: digits2 date.2.1 ++ '-' :: digits2 date.2.2
    ++ 'T' :: digits2 (rem / 3600) ++ ':' :: digits2 (rem % 3600 / 60)
    ++ ':' :: digits2 (rem % 60) ++ ['Z'])

/-! ## Data model -/

/-- The `Product` struct.  `Price` is the exact value of the `float64` field,
`Stock` the value of the `int` field. -/
structure Product where
  ProductID : String
  Name : String
  Description : String
  Price : Decimal
  Category : String
  Stock : Int
  CreatedAt : String
  UpdatedAt : String
deriving DecidableEq

/-- A `Product` whose numeric fields are values of their Go types. -/
def Product.WellFormed (p : Product) : Prop := IsFloat64 p.Price ∧ IsInt64 p.Stock

instance (p : Product) : Decidable p.WellFormed := by
  unfold Product.WellFormed; infer_instance

/-- The kinds of `dynamodb.AttributeValue` this service writes or reads
(`S`, `N`, `NULL`), and `BOOL` standing for the kinds it never writes. -/
inductive AttributeValue where
  | S (s : String)
  | N (n : Decimal)
  | NULL
  | BOOL (b : Bool)
deriving DecidableEq

/-- An item, `map[string]*dynamodb.AttributeValue`, as an association list read
at the first binding of a name. -/
abbrev Item := List (String × AttributeValue)

/-- The value bound to an attribute name. -/
def attr (name : String) : Item → Option AttributeValue
  | [] => none
  | (k, v) :: rest => if k = name then some v else attr name rest

/-- Bind an attribute name to a value, keeping the other attributes. -/
def setAttr (name : String) (v : AttributeValue) : Item → Item
  | [] => [(name, v)]
  | (k, w) :: rest => if k = name then (k, v) :: rest else (k, w) :: setAttr name v rest

/-! ## Attribute encoding (`dynamodbattribute`) -/

/-- Encoding of a Go string: the encoder's `NullEmptyString` default turns the
empty string into `NULL`. -/
def encodeString (s : String) : AttributeValue :=
  if s = "" then .NULL else .S s

/-- Library function `dynamodbattribute.MarshalMap(product)`: one attribute per struct field in
declaration order.  Encoding strings, a `float64` and an `int` cannot fail. -/
def MarshalMap (p : Product) : Except String Item :=
  .ok [("productId", encodeString p.ProductID),
       ("name", encodeString p.Name),
       ("description", encodeString p.Description),
       ("price", .N (formatShortest p.Price)),
       ("category", encodeString p.Category),
       ("stock", .N ⟨p.Stock, 0⟩),
       ("createdAt", encodeString p.CreatedAt),
       ("updatedAt", encodeString p.UpdatedAt)]

/-- Decoding into a Go string field.  An absent attribute and `NULL` leave the
zero value.  A value of another kind is reported as a decode error (for a number
the SDK would copy the number text instead; no item written by this service
reaches that case). -/
def decodeString : Option AttributeValue → Except String String
  | none => .ok ""
  | some .NULL => .ok ""
  | some (.S s) => .ok s
  | some _ => .error "unmarshal type error"

/-- Decoding into a `float64` field: `strconv.ParseFloat` on a number. -/
def decodeFloat64 : Option AttributeValue → Except String Decimal
  | none => .ok ⟨0, 0⟩
  | some .NULL => .ok ⟨0, 0⟩
  | some (.N n) =>
    match roundFloat64 n with
    | some f => .ok f
    | none => .error "value out of range"
  | some _ => .error "unmarshal type error"

/-- Decoding into an `int` field: `strconv.ParseInt` on a number. -/
def decodeInt : Option AttributeValue → Except String Int
  | none => .ok 0
  | some .NULL => .ok 0
  | some (.N n) =>
    match parseInt64 n with
    | some i => .ok i
    | none => .error "number overflow or not an integer"
  | some _ => .error "unmarshal type error"

/-- Library function `dynamodbattribute.UnmarshalMap(item, &product)` into a zero `Product`. -/
def UnmarshalMap (item : Item) : Except String Product := do
  let productId ← decodeString (attr "productId" item)
  let name ← decodeString (attr "name" item)
  let description ← decodeString (attr "description" item)
  let price ← decodeFloat64 (attr "price" item)
  let category ← decodeString (attr "category" item)
  let stock ← decodeInt (attr "stock" item)
  let createdAt ← decodeString (attr "createdAt" item)
  let updatedAt ← decodeString (attr "updatedAt" item)
  return { ProductID := productId, Name := name, Description := description, Price := price,
           Category := category, Stock := stock, CreatedAt := createdAt, UpdatedAt := updatedAt }

/-- Library function `dynamodbattribute.UnmarshalListOfMaps(items, &products)`. -/
def UnmarshalListOfMaps : List Item → Except String (List Product)
  | [] => .ok []
  | item :: rest => do
    let p ← UnmarshalMap item
    let ps ← UnmarshalListOfMaps rest
    return p :: ps

/-! ## The table -/

/-- The products table: its items, in the order a scan visits them. -/
abbrev Table := List Item

/-- The partition key of an item: its `productId` attribute, a string. -/
def keyOf (item : Item) : Option String :=
  match attr "productId" item with
  | some (.S k) => some k
  | _ => none

/-- Whether an item is stored under the key. -/
def hasKey (key : String) (item : Item) : Bool := decide (keyOf item = some key)

/-- The item stored under a key, if any. -/
def findItem (key : String) (t : Table) : Option Item := t.find? (hasKey key)

/-- Condition expressions used by the service. -/
inductive Condition where
  | attribute_exists (name : String)
deriving DecidableEq

/-- Evaluation of a condition expression against the item currently stored
under the key of the request (`none` when there is no such item). -/
def Condition.holds : Condition → Option Item → Bool
  | .attribute_exists name, some item => (attr name item).isSome
  | .attribute_exists _, none => false

/-- Whether a request without condition, or with the given one, may proceed. -/
def conditionMet (cond : Option Condition) (current : Option Item) : Bool :=
  match cond with
  | none => true
  | some c => c.holds current

/-- Store call `db.PutItem`: store the item under its key, replacing any item with that key. -/
def PutItem (fault : Option String) (item : Item) (t : Table) : Except String Table :=
  match fault with
  | some e => .error e
  | none =>
    match keyOf item with
    | none => .error "ValidationException: missing or mistyped key attribute productId"
    | some k => .ok (t.filter (fun it => !hasKey k it) ++ [item])

/-- Store call `db.GetItem`: `result.Item` is `none` when no item has the key. -/
def GetItem (fault : Option String) (key : String) (t : Table) : Except String (Option Item) :=
  match fault with
  | some e => .error e
  | none => .ok (findItem key t)

/-- Store call `db.Scan` with `Limit`: at most `limit` items are evaluated and returned. -/
def Scan (fault : Option String) (limit : Nat) (t : Table) : Except String (List Item) :=
  match fault with
  | some e => .error e
  | none => .ok (t.take limit)

/-- The `SET` action: assign each value to its attribute, left to right. -/
def applySets (sets : List (String × AttributeValue)) (item : Item) : Item :=
  sets.foldl (fun it s => setAttr s.1 s.2 it) item

/-- Store call `db.UpdateItem` with a `SET` update expression (`sets`, attribute names
already resolved), an optional condition and `ReturnValues: ALL_NEW`: the
result carries the item as it is after the write. -/
def UpdateItem (fault : Option String) (key : String) (sets : List (String × AttributeValue))
    (cond : Option Condition) (t : Table) : Except String (Item × Table) :=
  match fault with
  | some e => .error e
  | none =>
    if sets.any (fun s => s.1 = "productId") then
      .error "ValidationException: cannot update a key attribute"
    else
      let current := findItem key t
      if conditionMet cond current then
        match current with
        | some item =>
          let new := applySets sets item
          .ok (new, t.map (fun it => if hasKey key it then new else it))
        | none =>
          let new := applySets sets [("productId", .S key)]
          .ok (new, t ++ [new])
      else .error "ConditionalCheckFailedException: The conditional request failed"

/-- Store call `db.DeleteItem` with an optional condition. -/
def DeleteItem (fault : Option String) (key : String) (cond : Option Condition) (t : Table) :
    Except String Table :=
  match fault with
  | some e => .error e
  | none =>
    if conditionMet cond (findItem key t) then .ok (t.filter (fun it => !hasKey key it))
    else .error "ConditionalCheckFailedException: The conditional request failed"

/-! ## Handlers -/

/-- The value handed to `c.JSON`, or no body at all. -/
inductive Body where
  | empty
  | error (message : String)
  | product (p : Product)
  | products (products : List Product) (count : Nat)
  | health (status service : String)
deriving DecidableEq

/-- An HTTP response: status code and body. -/
structure Response where
  status : Nat
  body : Body
deriving DecidableEq

/-- Library function `os.Getenv` over an environment: the empty string when the variable is unset. -/
def Getenv (env : String → Option String) (key : String) : String :=
  (env key).getD ""

/-- Function `getEnv(key, defaultValue)`. -/
def getEnv (env : String → Option String) (key defaultValue : String) : String :=
  let value := Getenv env key
  if value ≠ "" then value else defaultValue

/-- Handler `healthHandler`. -/
def healthHandler : Response := ⟨200, .health "healthy" "product-service"⟩

/-- Handler `createProduct`.  `body` is the outcome of `c.ShouldBindJSON(&product)`,
`uuid` the value of `uuid.New().String()`, `now` the value of `time.Now()`. -/
def createProduct (body : Except String Product) (uuid : String) (now : Time)
    (fault : Option String) (t : Table) : Response × Table :=
  match body with
  | .error e => (⟨400, .error e⟩, t)
  | .ok product =>
    let product := { product with ProductID := uuid }
    let now := formatRFC3339 now
    let product := { product with CreatedAt := now }
    let product := { product with UpdatedAt := now }
    match MarshalMap product with
    | .error _ => (⟨500, .error "Failed to marshal product"⟩, t)
    | .ok av =>
      match PutItem fault av t with
      | .error e => (⟨500, .error e⟩, t)
      | .ok t' => (⟨201, .product product⟩, t')

/-- Handler `getProduct`.  `productID` is `c.Param("id")`. -/
def getProduct (productID : String) (fault : Option String) (t : Table) : Response :=
  match GetItem fault productID t with
  | .error e => ⟨500, .error e⟩
  | .ok none => ⟨404, .error "Product not found"⟩
  | .ok (some item) =>
    match UnmarshalMap item with
    | .error _ => ⟨500, .error "Failed to unmarshal product"⟩
    | .ok product => ⟨200, .product product⟩

/-- Handler `listProducts`. -/
def listProducts (fault : Option String) (t : Table) : Response :=
  match Scan fault 10 t with
  | .error e => ⟨500, .error e⟩
  | .ok items =>
    match UnmarshalListOfMaps items with
    | .error _ => ⟨500, .error "Failed to unmarshal products"⟩
    | .ok products => ⟨200, .products products products.length⟩

/-- The `ExpressionAttributeValues` of `updateProduct`, attached to the
attribute each one is assigned to by the update expression
`SET #name = :name, description = :desc, price = :price, category = :cat,
stock = :stock, updatedAt = :updated`. -/
def updateAssignments (product : Product) : List (String × AttributeValue) :=
  [("name", .S product.Name),
   ("description", .S product.Description),
   ("price", .N (formatF6 product.Price)),
   ("category", .S product.Category),
   ("stock", .N ⟨product.Stock, 0⟩),
   ("updatedAt", .S product.UpdatedAt)]

/-- Handler `updateProduct`.  `productID` is `c.Param("id")`, `body` the outcome of
`c.ShouldBindJSON(&product)`, `now` the value of `time.Now()`. -/
def updateProduct (productID : String) (body : Except String Product) (now : Time)
    (fault : Option String) (t : Table) : Response × Table :=
  match body with
  | .error e => (⟨400, .error e⟩, t)
  | .ok product =>
    let product := { product with UpdatedAt := formatRFC3339 now }
    match UpdateItem fault productID (updateAssignments product)
        (some (.attribute_exists "productId")) t with
    | .error _ => (⟨404, .error "Product not found"⟩, t)
    | .ok (attributes, t') =>
      match UnmarshalMap attributes with
      | .error _ => (⟨500, .error "Failed to unmarshal product"⟩, t')
      | .ok updatedProduct => (⟨200, .product updatedProduct⟩, t')

/-- Handler `deleteProduct`.  `productID` is `c.Param("id")`. -/
def deleteProduct (productID : String) (fault : Option String) (t : Table) : Response × Table :=
  match DeleteItem fault productID (some (.attribute_exists "productId")) t with
  | .error _ => (⟨404, .error "Product not found"⟩, t)
  | .ok t' => (⟨204, .empty⟩, t')

/-! ## Auxiliary definitions for the proofs about time -/

/-- Year of the 400-year era, as computed in `civilFromDays`. -/
def yearOfEra (doe : Nat) : Nat := (doe - doe / 1460 + doe / 36524 - doe / 146096) / 365

/-- Day of the year starting on 1 March, as computed in `civilFromDays`. -/
def dayOfYear (doe : Nat) : Nat :=
  doe - (365 * yearOfEra doe + yearOfEra doe / 4 - yearOfEra doe / 100)

/-- The date of `civilFromDays` as one number, `yyyymmdd`. -/
def dateKey (z : Nat) : Nat :=
  (civilFromDays z).1 * 10000 + (civilFromDays z).2.1 * 100 + (civilFromDays z).2.2

/-- The date key in terms of era, year of era and day of year. -/
def keyOfParts (era yoe doy : Nat) : Nat :=
  let mp := (5 * doy + 2) / 153
  let d := doy - (153 * mp + 2) / 5 + 1
  let m := if mp < 10 then mp + 3 else mp - 9
  let y := yoe + era * 400
  (if m ≤ 2 then y + 1 else y) * 10000 + m * 100 + d

/-- The characters of a timestamp with the given fields. -/
def stampChars (y m d hh mi ss : Nat) : List Char :=
  yearDigits y ++ '-' :: digits2 m ++ '-' :: digits2 d
    ++ 'T' :: digits2 hh ++ ':' :: digits2 mi ++ ':' :: digits2 ss ++ ['Z']

/-- The first whole second of the year 10000, in seconds since the epoch. -/
def year10000 : Nat := 253402300800

/-! ## Sample values -/

/-- The product of the create example: `Widget`, price 9.99 (the nearest
`float64`), category `tools`, stock 5, with identifier and timestamps supplied
by the caller. -/
def widget : Product :=
  { ProductID := "chosen-by-client", Name := "Widget", Description := "",
    Price := ⟨99900000000000002131628207280300557613372802734375, 49⟩,
    Category := "tools", Stock := 5,
    CreatedAt := "1999-01-01T00:00:00Z", UpdatedAt := "1999-01-01T00:00:00Z" }

/-- The instant 2024-11-04T09:25:45Z. -/
def createTime : Time := 1730712345000000000

/-- Half a second after `createTime`. -/
def soonAfter : Time := 1730712345500000000

/-- Two minutes after `createTime`. -/
def laterOn : Time := 1730712465000000000

/-- The table after creating `widget` under the identifier `id-1` in an empty
table at `createTime`. -/
def createdTable : Table := (createProduct (.ok widget) "id-1" createTime none []).2

/-- The record of `widget` as created in `createdTable`. -/
def createdWidget : Product :=
  { ProductID := "id-1", Name := "Widget", Description := "",
    Price := ⟨99900000000000002131628207280300557613372802734375, 49⟩,
    Category := "tools", Stock := 5,
    CreatedAt := "2024-11-04T09:25:45Z", UpdatedAt := "2024-11-04T09:25:45Z" }

/-- The item of `createdWidget`. -/
def createdItem : Item :=
  [("productId", .S "id-1"), ("name", .S "Widget"), ("description", .NULL),
   ("price", .N ⟨999, 2⟩), ("category", .S "tools"), ("stock", .N ⟨5, 0⟩),
   ("createdAt", .S "2024-11-04T09:25:45Z"), ("updatedAt", .S "2024-11-04T09:25:45Z")]

/-- An update payload: price 1.0009765625 (a `float64`: 1025/1024), stock 0, no
identifier and no timestamps. -/
def repriced : Product :=
  { ProductID := "", Name := "Widget", Description := "", Price := ⟨10009765625, 10⟩,
    Category := "tools", Stock := 0, CreatedAt := "", UpdatedAt := "" }

/-- The record returned for `repriced` applied to `id-1` in `createdTable` at
`laterOn`: the price is the `float64` nearest to 1.000977. -/
def repricedWidget : Product :=
  { ProductID := "id-1", Name := "Widget", Description := "",
    Price := ⟨10009770000000000056417093219351954758167266845703125, 52⟩,
    Category := "tools", Stock := 0,
    CreatedAt := "2024-11-04T09:25:45Z", UpdatedAt := "2024-11-04T09:27:45Z" }

/-- The item of `repricedWidget`. -/
def repricedItem : Item :=
  [("productId", .S "id-1"), ("name", .S "Widget"), ("description", .S ""),
   ("price", .N ⟨1000977, 6⟩), ("category", .S "tools"), ("stock", .N ⟨0, 0⟩),
   ("createdAt", .S "2024-11-04T09:25:45Z"), ("updatedAt", .S "2024-11-04T09:27:45Z")]

/-- The record after applying `repriced` to `id-1` a second time, at a third
instant one hour after `createTime`. -/
def repricedAgain : Product :=
  { repricedWidget with UpdatedAt := "2024-11-04T10:25:45Z" }

/-- One hour after `createTime`. -/
def hourLater : Time := 1730715945000000000

/-- The record returned for `repriced` applied to `id-1` in `createdTable` at
`soonAfter`, within the second of `createTime`. -/
def sameSecondWidget : Product :=
  { repricedWidget with UpdatedAt := "2024-11-04T09:25:45Z" }

/-- The item of `sameSecondWidget`. -/
def sameSecondItem : Item :=
  [("productId", .S "id-1"), ("name", .S "Widget"), ("description", .S ""),
   ("price", .N ⟨1000977, 6⟩), ("category", .S "tools"), ("stock", .N ⟨0, 0⟩),
   ("createdAt", .S "2024-11-04T09:25:45Z"), ("updatedAt", .S "2024-11-04T09:25:45Z")]

/-- An item holding nothing but its key. -/
def bareItem (key : String) : Item := [("productId", .S key)]

/-- A table of eleven items. -/
def elevenItems : Table :=
  [bareItem "p00", bareItem "p01", bareItem "p02", bareItem "p03", bareItem "p04",
   bareItem "p05", bareItem "p06", bareItem "p07", bareItem "p08", bareItem "p09",
   bareItem "p10"]

/-- An environment in which only `PORT` is set. -/
def portOnly (key : String) : Option String :=
  if key = "PORT" then some "9090" else none

/-! ## Lemmas on items and on the table -/

theorem attr_setAttr_same (name : String) (v : AttributeValue) (item : Item) :
    attr name (setAttr name v item) = some v := by
  induction item with
  | nil => simp [setAttr, attr]
  | cons kv rest ih =>
    obtain ⟨k, w⟩ := kv
    by_cases h : k = name
    · simp [setAttr, attr, h]
    · simp [setAttr, attr, h, ih]

theorem attr_setAttr_other (name other : String) (v : AttributeValue) (item : Item)
    (h : other ≠ name) : attr other (setAttr name v item) = attr other item := by
  induction item with
  | nil => simp [setAttr, attr, h.symm]
  | cons kv rest ih =>
    obtain ⟨k, w⟩ := kv
    by_cases hk : k = name
    · have hko : ¬ k = other := fun e => h (e.symm.trans hk)
      simp [setAttr, attr, hk, hko]
      simp [← hk, hko]
    · by_cases ho : k = other
      · simp [setAttr, attr, hk, ho]
        subst ho
        simp [hk, attr]
      · simp [setAttr, attr, hk, ho, ih]

theorem hasKey_of_findItem {key : String} {t : Table} {item : Item}
    (h : findItem key t = some item) : hasKey key item = true := by
  unfold findItem at h
  exact List.find?_some h

theorem keyOf_of_hasKey {key : String} {item : Item} (h : hasKey key item = true) :
    keyOf item = some key := by
  simpa [hasKey] using h

theorem attr_productId_of_hasKey {key : String} {item : Item} (h : hasKey key item = true) :
    attr "productId" item = some (.S key) := by
  have hk := keyOf_of_hasKey h
  unfold keyOf at hk
  split at hk
  · next k heq => simp at hk; subst hk; exact heq
  · simp at hk

theorem hasKey_unique {key other : String} {item : Item} (h : hasKey key item = true)
    (hne : other ≠ key) : hasKey other item = false := by
  have hk := keyOf_of_hasKey h
  simp [hasKey, hk, hne.symm]

theorem findItem_filter_self (key : String) (t : Table) :
    findItem key (t.filter (fun it => !hasKey key it)) = none := by
  unfold findItem
  rw [List.find?_eq_none]
  intro x hx
  simp [List.mem_filter] at hx
  simp [hx.2]

theorem findItem_filter_other (key other : String) (t : Table) (hne : other ≠ key) :
    findItem other (t.filter (fun it => !hasKey key it)) = findItem other t := by
  unfold findItem
  induction t with
  | nil => rfl
  | cons it rest ih =>
    by_cases hk : hasKey key it = true
    · have ho : hasKey other it = false := hasKey_unique hk hne
      simp [List.filter, hk, List.find?, ho, ih]
    · simp only [Bool.not_eq_true] at hk
      by_cases ho : hasKey other it = true
      · simp [List.filter, hk, List.find?, ho]
      · simp only [Bool.not_eq_true] at ho
        simp [List.filter, hk, List.find?, ho, ih]

theorem findItem_append_singleton (key : String) (t : Table) (item : Item) :
    findItem key (t ++ [item]) =
      (findItem key t).orElse (fun _ => if hasKey key item then some item else none) := by
  unfold findItem
  induction t with
  | nil => by_cases h : hasKey key item = true <;> simp [List.find?, h]
  | cons it rest ih =>
    by_cases h : hasKey key it = true
    · simp [List.find?, h]
    · simp only [Bool.not_eq_true] at h
      simp [List.find?, h, ih]

theorem findItem_map_replace_self (key : String) (t : Table) (new item : Item)
    (hnew : hasKey key new = true) (h : findItem key t = some item) :
    findItem key (t.map (fun it => if hasKey key it then new else it)) = some new := by
  unfold findItem at *
  induction t with
  | nil => simp at h
  | cons it rest ih =>
    by_cases hk : hasKey key it = true
    · simp [List.find?, hk, hnew]
    · simp only [Bool.not_eq_true] at hk
      simp only [List.find?, hk] at h
      simp [List.find?, hk, ih h]

theorem findItem_map_replace_other (key other : String) (t : Table) (new : Item)
    (hnew : hasKey key new = true) (hne : other ≠ key) :
    findItem other (t.map (fun it => if hasKey key it then new else it)) = findItem other t := by
  unfold findItem
  induction t with
  | nil => rfl
  | cons it rest ih =>
    by_cases hk : hasKey key it = true
    · have h1 : hasKey other it = false := hasKey_unique hk hne
      have h2 : hasKey other new = false := hasKey_unique hnew hne
      simp [List.find?, hk, h1, h2, ih]
    · simp only [Bool.not_eq_true] at hk
      by_cases ho : hasKey other it = true
      · simp [List.find?, hk, ho]
      · simp only [Bool.not_eq_true] at ho
        simp [List.find?, hk, ho, ih]

theorem UnmarshalListOfMaps_length {items : List Item} {ps : List Product}
    (h : UnmarshalListOfMaps items = .ok ps) : ps.length = items.length := by
  induction items generalizing ps with
  | nil =>
    simp only [UnmarshalListOfMaps, Except.ok.injEq] at h
    subst h; rfl
  | cons item rest ih =>
    simp only [UnmarshalListOfMaps] at h
    cases hp : UnmarshalMap item with
    | error e => simp [hp, bind, Except.bind] at h
    | ok p =>
      cases hr : UnmarshalListOfMaps rest with
      | error e => simp [hp, hr, bind, Except.bind] at h
      | ok qs =>
        simp [hp, hr, bind, Except.bind, pure, Except.pure] at h
        subst h
        simp [ih hr]

theorem conditionMet_exists_of_findItem {key : String} {t : Table} {item : Item}
    (h : findItem key t = some item) :
    conditionMet (some (.attribute_exists "productId")) (findItem key t) = true := by
  rw [h]
  simp [conditionMet, Condition.holds, attr_productId_of_hasKey (hasKey_of_findItem h)]

theorem conditionMet_exists_of_absent {key : String} {t : Table}
    (h : findItem key t = none) :
    conditionMet (some (.attribute_exists "productId")) (findItem key t) = false := by
  rw [h]
  simp [conditionMet, Condition.holds]

/-! ## Lemmas on the attribute encoding -/

theorem decodeString_encodeString (s : String) :
    decodeString (some (encodeString s)) = .ok s := by
  by_cases h : s = ""
  · simp [encodeString, h, decodeString]
  · simp [encodeString, h, decodeString]

theorem roundFloat64_formatShortest {f : Decimal} (hf : IsFloat64 f) :
    roundFloat64 (formatShortest f) = some f := by
  unfold formatShortest
  cases h : (List.range 17).findSome? fun i =>
      (sigCandidates (i + 1) f).find? fun d => decide (roundFloat64 d = some f) with
  | none => simpa using hf
  | some d =>
    obtain ⟨i, -, hi⟩ := List.exists_of_findSome?_eq_some h
    have := List.find?_some hi
    simpa using this

theorem parseInt64_ofInt {i : Int} (hi : IsInt64 i) : parseInt64 ⟨i, 0⟩ = some i := by
  simp [parseInt64, hi]

theorem UnmarshalMap_MarshalMap {p : Product} (hp : p.WellFormed) {av : Item}
    (h : MarshalMap p = .ok av) : UnmarshalMap av = .ok p := by
  simp only [MarshalMap, Except.ok.injEq] at h
  subst h
  obtain ⟨hprice, hstock⟩ := hp
  simp [UnmarshalMap, attr, decodeString_encodeString, decodeFloat64, decodeInt,
    roundFloat64_formatShortest hprice, parseInt64_ofInt hstock, bind, Except.bind, pure,
    Except.pure]

/-- The attributes of an item after the assignments of `updateProduct`. -/
theorem attr_applySets_updateAssignments (q : Product) (item : Item) :
    attr "productId" (applySets (updateAssignments q) item) = attr "productId" item ∧
    attr "name" (applySets (updateAssignments q) item) = some (.S q.Name) ∧
    attr "description" (applySets (updateAssignments q) item) = some (.S q.Description) ∧
    attr "price" (applySets (updateAssignments q) item) = some (.N (formatF6 q.Price)) ∧
    attr "category" (applySets (updateAssignments q) item) = some (.S q.Category) ∧
    attr "stock" (applySets (updateAssignments q) item) = some (.N ⟨q.Stock, 0⟩) ∧
    attr "createdAt" (applySets (updateAssignments q) item) = attr "createdAt" item ∧
    attr "updatedAt" (applySets (updateAssignments q) item) = some (.S q.UpdatedAt) := by
  simp [applySets, updateAssignments, List.foldl, attr_setAttr_same, attr_setAttr_other]

theorem hasKey_applySets_updateAssignments (key : String) (q : Product) (item : Item)
    (h : hasKey key item = true) :
    hasKey key (applySets (updateAssignments q) item) = true := by
  have hk := attr_productId_of_hasKey h
  simp [hasKey, keyOf, (attr_applySets_updateAssignments q item).1, hk]

/-! ## Lemmas on the handlers -/

/-- The record `UnmarshalMap` reads from an item just updated by
`updateProduct`, in terms of the item before the update. -/
theorem UnmarshalMap_applySets (q : Product) (item : Item) :
    UnmarshalMap (applySets (updateAssignments q) item) =
      (do
        let productId ← decodeString (attr "productId" item)
        let price ← decodeFloat64 (some (.N (formatF6 q.Price)))
        let stock ← decodeInt (some (.N ⟨q.Stock, 0⟩))
        let createdAt ← decodeString (attr "createdAt" item)
        return ⟨productId, q.Name, q.Description, price, q.Category, stock, createdAt,
          q.UpdatedAt⟩) := by
  obtain ⟨h1, h2, h3, h4, h5, h6, h7, h8⟩ := attr_applySets_updateAssignments q item
  simp only [UnmarshalMap, h1, h2, h3, h4, h5, h6, h7, h8, decodeString]
  cases decodeString (attr "productId" item) <;>
  cases decodeFloat64 (some (.N (formatF6 q.Price))) <;>
  cases decodeInt (some (.N ⟨q.Stock, 0⟩)) <;>
  cases decodeString (attr "createdAt" item) <;> rfl

theorem updateAssignments_no_key (q : Product) :
    (updateAssignments q).any (fun s => s.1 = "productId") = false := by
  simp [updateAssignments]

/-- The store call of `updateProduct` on an identifier with an item, when the
store reports no other error. -/
theorem UpdateItem_of_found {productID : String} (q : Product) {t : Table} {item : Item}
    (hf : findItem productID t = some item) :
    UpdateItem none productID (updateAssignments q) (some (.attribute_exists "productId")) t =
      .ok (applySets (updateAssignments q) item,
        t.map (fun it => if hasKey productID it then applySets (updateAssignments q) item
          else it)) := by
  have hc := conditionMet_exists_of_findItem hf
  rw [hf] at hc
  simp only [UpdateItem, updateAssignments_no_key, hf, hc]
  simp

/-- The store call of `updateProduct` on an identifier without item. -/
theorem UpdateItem_of_absent {productID : String} (q : Product) {t : Table}
    (fault : Option String) (hf : findItem productID t = none) :
    ∃ e, UpdateItem fault productID (updateAssignments q)
      (some (.attribute_exists "productId")) t = .error e := by
  cases fault with
  | some e => exact ⟨e, rfl⟩
  | none =>
    have hc := conditionMet_exists_of_absent hf
    refine ⟨"ConditionalCheckFailedException: The conditional request failed", ?_⟩
    simp only [UpdateItem, updateAssignments_no_key, hc]
    simp

/-- What a 200 answer of `updateProduct` says about the call. -/
theorem updateProduct_ok {productID : String} {p : Product} {now : Time}
    {fault : Option String} {t t' : Table} {r : Product}
    (h : updateProduct productID (.ok p) now fault t = (⟨200, .product r⟩, t')) :
    fault = none ∧ ∃ item, findItem productID t = some item ∧
      UnmarshalMap (applySets (updateAssignments { p with UpdatedAt := formatRFC3339 now }) item)
        = .ok r ∧
      t' = t.map (fun it => if hasKey productID it then
        applySets (updateAssignments { p with UpdatedAt := formatRFC3339 now }) item else it) := by
  cases fault with
  | some e => simp [updateProduct, UpdateItem] at h
  | none =>
    refine ⟨rfl, ?_⟩
    cases hf : findItem productID t with
    | none =>
      obtain ⟨e, he⟩ := UpdateItem_of_absent { p with UpdatedAt := formatRFC3339 now } none hf
      simp [updateProduct, he] at h
    | some item =>
      refine ⟨item, rfl, ?_⟩
      have hs := UpdateItem_of_found { p with UpdatedAt := formatRFC3339 now } hf
      cases hu : UnmarshalMap
          (applySets (updateAssignments { p with UpdatedAt := formatRFC3339 now }) item) with
      | error e => simp [updateProduct, hs, hu] at h
      | ok r2 =>
        simp only [updateProduct, hs, hu, Prod.mk.injEq, Response.mk.injEq, Body.product.injEq,
          true_and] at h
        obtain ⟨h1, h2⟩ := h
        subst h1
        exact ⟨rfl, h2.symm⟩

/-- The answer of `updateProduct` on an identifier with an item, when the store
reports no error and the updated item decodes. -/
theorem updateProduct_of_found {productID : String} {p : Product} {now : Time}
    {t : Table} {item : Item} {r : Product} (hf : findItem productID t = some item)
    (hu : UnmarshalMap
      (applySets (updateAssignments { p with UpdatedAt := formatRFC3339 now }) item) = .ok r) :
    updateProduct productID (.ok p) now none t = (⟨200, .product r⟩,
      t.map (fun it => if hasKey productID it then
        applySets (updateAssignments { p with UpdatedAt := formatRFC3339 now }) item else it)) := by
  have hs := UpdateItem_of_found { p with UpdatedAt := formatRFC3339 now } hf
  simp only [updateProduct, hs, hu]

/-- The fields an update assigns, as read back from the updated item. -/
theorem UnmarshalMap_applySets_fields {q : Product} {item : Item} {r : Product}
    (h : UnmarshalMap (applySets (updateAssignments q) item) = .ok r) :
    r.Name = q.Name ∧ r.Description = q.Description ∧ r.Category = q.Category ∧
    r.UpdatedAt = q.UpdatedAt ∧
    decodeFloat64 (some (.N (formatF6 q.Price))) = .ok r.Price ∧
    decodeInt (some (.N ⟨q.Stock, 0⟩)) = .ok r.Stock := by
  rw [UnmarshalMap_applySets] at h
  cases d1 : decodeString (attr "productId" item) <;>
  cases d4 : decodeFloat64 (some (.N (formatF6 q.Price))) <;>
  cases d6 : decodeInt (some (.N ⟨q.Stock, 0⟩)) <;>
  cases d7 : decodeString (attr "createdAt" item) <;>
  simp [d1, d4, d6, d7, bind, Except.bind, pure, Except.pure] at h
  subst h
  simp

/-- The fields of a decoded record, one decoder call each. -/
theorem UnmarshalMap_fields {item : Item} {r : Product} (h : UnmarshalMap item = .ok r) :
    decodeString (attr "productId" item) = .ok r.ProductID ∧
    decodeString (attr "createdAt" item) = .ok r.CreatedAt := by
  simp only [UnmarshalMap] at h
  cases h1 : decodeString (attr "productId" item) <;>
  cases h2 : decodeString (attr "name" item) <;>
  cases h3 : decodeString (attr "description" item) <;>
  cases h4 : decodeFloat64 (attr "price" item) <;>
  cases h5 : decodeString (attr "category" item) <;>
  cases h6 : decodeInt (attr "stock" item) <;>
  cases h7 : decodeString (attr "createdAt" item) <;>
  cases h8 : decodeString (attr "updatedAt" item) <;>
  simp [h1, h2, h3, h4, h5, h6, h7, h8, bind, Except.bind, pure, Except.pure] at h
  subst h
  exact ⟨rfl, rfl⟩

theorem keyOf_MarshalMap {q : Product} {av : Item} {k : String} (h : MarshalMap q = .ok av)
    (hk : keyOf av = some k) : k = q.ProductID := by
  simp only [MarshalMap, Except.ok.injEq] at h
  subst h
  by_cases hq : q.ProductID = ""
  · simp [keyOf, attr, encodeString, hq] at hk
  · simp [keyOf, attr, encodeString, hq] at hk
    exact hk.symm

/-- What a 201 answer of `createProduct` says about the call. -/
theorem createProduct_ok {p : Product} {g : String} {now : Time} {fault : Option String}
    {t t' : Table} {r : Product}
    (h : createProduct (.ok p) g now fault t = (⟨201, .product r⟩, t')) :
    r = ⟨g, p.Name, p.Description, p.Price, p.Category, p.Stock, formatRFC3339 now,
      formatRFC3339 now⟩ ∧
    ∃ av, MarshalMap r = .ok av ∧ hasKey g av = true ∧
      t' = t.filter (fun it => !hasKey g it) ++ [av] := by
  cases fault with
  | some e => simp [createProduct, MarshalMap, PutItem] at h
  | none =>
    cases hm : MarshalMap ⟨g, p.Name, p.Description, p.Price, p.Category, p.Stock,
        formatRFC3339 now, formatRFC3339 now⟩ with
    | error e => simp [MarshalMap] at hm
    | ok av =>
      cases hk : keyOf av with
      | none => simp [createProduct, hm, PutItem, hk] at h
      | some k =>
        have hkg : k = g := keyOf_MarshalMap hm hk
        subst hkg
        simp only [createProduct, hm, PutItem, hk, Prod.mk.injEq, Response.mk.injEq,
          Body.product.injEq, true_and] at h
        obtain ⟨h1, h2⟩ := h
        subst h1
        refine ⟨rfl, av, hm, ?_, h2.symm⟩
        simp [hasKey, hk]

/-! ## Lemmas on the calendar -/

theorem yearOfEra_lt (doe : Nat) (h : doe < 146097) : yearOfEra doe < 400 := by
  unfold yearOfEra
  omega

theorem yearOfEra_range (doe : Nat) (h : doe < 146097) :
    365 * yearOfEra doe + yearOfEra doe / 4 - yearOfEra doe / 100 ≤ doe ∧
    doe ≤ 365 * yearOfEra doe + yearOfEra doe / 4 - yearOfEra doe / 100 + 365 := by
  have hlt := yearOfEra_lt doe h
  obtain ⟨yoe, hy⟩ : ∃ yoe, yoe = yearOfEra doe := ⟨_, rfl⟩
  rw [← hy] at hlt ⊢
  unfold yearOfEra at hy
  obtain ⟨c, hc⟩ : ∃ c, c = yoe / 100 := ⟨_, rfl⟩
  obtain ⟨b, hb⟩ : ∃ b, b = doe / 36524 := ⟨_, rfl⟩
  have hc4 : c < 4 := by omega
  have hb5 : b < 5 := by omega
  interval_cases c <;> interval_cases b <;> omega

theorem yearOfEra_step (doe : Nat) : yearOfEra doe ≤ yearOfEra (doe + 1) := by
  unfold yearOfEra
  omega

theorem dayOfYear_le (doe : Nat) (h : doe < 146097) : dayOfYear doe ≤ 365 := by
  have := yearOfEra_range doe h
  unfold dayOfYear
  omega

/-- Within an era the pair (year of era, day of year) moves forward with the day. -/
theorem dayOfYear_step (doe : Nat) (h : doe + 1 < 146097) :
    (yearOfEra doe = yearOfEra (doe + 1) ∧ dayOfYear (doe + 1) = dayOfYear doe + 1) ∨
    yearOfEra doe < yearOfEra (doe + 1) := by
  have h1 := yearOfEra_range doe (by omega)
  have h2 := yearOfEra_range (doe + 1) h
  have h3 := yearOfEra_step doe
  by_cases heq : yearOfEra doe = yearOfEra (doe + 1)
  · left
    refine ⟨heq, ?_⟩
    unfold dayOfYear
    rw [← heq] at h2 ⊢
    omega
  · right
    omega

theorem dateKey_eq (z : Nat) :
    dateKey z = keyOfParts ((z + 719468) / 146097) (yearOfEra ((z + 719468) % 146097))
      (dayOfYear ((z + 719468) % 146097)) := rfl

theorem keyOfParts_day (era yoe doy : Nat) (h : doy + 1 ≤ 365) :
    keyOfParts era yoe doy < keyOfParts era yoe (doy + 1) := by
  simp only [keyOfParts]
  obtain ⟨mp, hmp⟩ : ∃ mp, mp = (5 * doy + 2) / 153 := ⟨_, rfl⟩
  obtain ⟨mq, hmq⟩ : ∃ mq, mq = (5 * (doy + 1) + 2) / 153 := ⟨_, rfl⟩
  rw [← hmp, ← hmq]
  have hlt : mp ≤ 11 := by omega
  have hstep : mq = mp ∨ mq = mp + 1 := by omega
  rcases hstep with hs | hs
  · rw [hs] at hmq ⊢
    interval_cases mp <;> simp <;> omega
  · rw [hs] at hmq ⊢
    interval_cases mp <;> simp <;> omega

theorem keyOfParts_year (y y' doy doy' : Nat) (hy : y < y')
    (h : doy ≤ 365) (h' : doy' ≤ 365) :
    (if (if (5 * doy + 2) / 153 < 10 then (5 * doy + 2) / 153 + 3 else (5 * doy + 2) / 153 - 9) ≤ 2
        then y + 1 else y) * 10000
      + (if (5 * doy + 2) / 153 < 10 then (5 * doy + 2) / 153 + 3 else (5 * doy + 2) / 153 - 9) * 100
      + (doy - (153 * ((5 * doy + 2) / 153) + 2) / 5 + 1) <
    (if (if (5 * doy' + 2) / 153 < 10 then (5 * doy' + 2) / 153 + 3 else (5 * doy' + 2) / 153 - 9) ≤ 2
        then y' + 1 else y') * 10000
      + (if (5 * doy' + 2) / 153 < 10 then (5 * doy' + 2) / 153 + 3 else (5 * doy' + 2) / 153 - 9) * 100
      + (doy' - (153 * ((5 * doy' + 2) / 153) + 2) / 5 + 1) := by
  split_ifs <;> omega

theorem dateKey_succ (z : Nat) : dateKey z < dateKey (z + 1) := by
  rw [dateKey_eq, dateKey_eq]
  have hdoe : (z + 719468) % 146097 < 146097 := Nat.mod_lt _ (by norm_num)
  by_cases hlast : (z + 719468) % 146097 + 1 < 146097
  · have he : (z + 1 + 719468) / 146097 = (z + 719468) / 146097 := by omega
    have hd : (z + 1 + 719468) % 146097 = (z + 719468) % 146097 + 1 := by omega
    rw [he, hd]
    have hle := dayOfYear_le _ hlast
    have hle0 := dayOfYear_le _ hdoe
    rcases dayOfYear_step _ hlast with ⟨hy, hdy⟩ | hy
    · rw [← hy, hdy]
      exact keyOfParts_day _ _ _ (by omega)
    · exact keyOfParts_year _ _ _ _ (by omega) hle0 hle
  · have he : (z + 1 + 719468) / 146097 = (z + 719468) / 146097 + 1 := by omega
    have hd : (z + 1 + 719468) % 146097 = 0 := by omega
    rw [he, hd]
    have hy := yearOfEra_lt _ hdoe
    have hle0 := dayOfYear_le _ hdoe
    have hle := dayOfYear_le 0 (by norm_num)
    exact keyOfParts_year _ _ _ _ (by omega) hle0 hle

theorem dateKey_strictMono {z z' : Nat} (h : z < z') : dateKey z < dateKey z' := by
  induction z' with
  | zero => omega
  | succ n ih =>
    rcases Nat.lt_succ_iff_lt_or_eq.mp h with hlt | heq
    · exact lt_trans (ih hlt) (dateKey_succ n)
    · subst heq
      exact dateKey_succ z

theorem civilFromDays_bounds (z : Nat) :
    1 ≤ (civilFromDays z).2.1 ∧ (civilFromDays z).2.1 ≤ 12 ∧
    1 ≤ (civilFromDays z).2.2 ∧ (civilFromDays z).2.2 ≤ 31 := by
  have hdoe : (z + 719468) % 146097 < 146097 := Nat.mod_lt _ (by norm_num)
  have hle := dayOfYear_le _ hdoe
  have : ∀ doy, doy ≤ 365 →
      1 ≤ (if (5 * doy + 2) / 153 < 10 then (5 * doy + 2) / 153 + 3 else (5 * doy + 2) / 153 - 9) ∧
      (if (5 * doy + 2) / 153 < 10 then (5 * doy + 2) / 153 + 3 else (5 * doy + 2) / 153 - 9) ≤ 12 ∧
      1 ≤ doy - (153 * ((5 * doy + 2) / 153) + 2) / 5 + 1 ∧
      doy - (153 * ((5 * doy + 2) / 153) + 2) / 5 + 1 ≤ 31 := by
    intro doy hd
    split_ifs <;> omega
  exact this _ hle

/-! ## Lemmas on the order of timestamps -/

theorem digitChar_lt {a b : Nat} (h : a % 10 < b % 10) : digitChar a < digitChar b := by
  unfold digitChar
  have hb : b % 10 < 10 := Nat.mod_lt _ (by norm_num)
  generalize a % 10 = i at h
  generalize b % 10 = j at h hb
  interval_cases j <;> interval_cases i <;> decide

theorem digitChar_congr {a b : Nat} (h : a % 10 = b % 10) : digitChar a = digitChar b := by
  unfold digitChar
  rw [h]

/-- Comparing two lists that start with a digit each. -/
theorem digit_cons_lt {a b : Nat} {l1 l2 : List Char}
    (h : a % 10 < b % 10 ∨ (a % 10 = b % 10 ∧ l1 < l2)) :
    digitChar a :: l1 < digitChar b :: l2 := by
  rcases h with h | ⟨h, hl⟩
  · exact List.Lex.rel (digitChar_lt h)
  · rw [digitChar_congr h]
    exact List.Lex.cons hl

theorem cons_lt_cons_same (c : Char) {l1 l2 : List Char} (h : l1 < l2) : c :: l1 < c :: l2 :=
  List.Lex.cons h

theorem digits2_append_lt {a b : Nat} (h : a < b) (hb : b < 100) (r1 r2 : List Char) :
    digits2 a ++ r1 < digits2 b ++ r2 := by
  simp only [digits2, List.cons_append, List.nil_append]
  by_cases h1 : a / 10 % 10 < b / 10 % 10
  · exact digit_cons_lt (Or.inl h1)
  · refine digit_cons_lt (Or.inr ⟨by omega, ?_⟩)
    exact digit_cons_lt (Or.inl (by omega))

theorem digits2_append_same (a : Nat) {r1 r2 : List Char} (h : r1 < r2) :
    digits2 a ++ r1 < digits2 a ++ r2 := by
  simp only [digits2, List.cons_append, List.nil_append]
  exact List.Lex.cons (List.Lex.cons h)

theorem digits4_append_lt {a b : Nat} (h : a < b) (hb : b < 10000) (r1 r2 : List Char) :
    digits4 a ++ r1 < digits4 b ++ r2 := by
  simp only [digits4, List.cons_append, List.nil_append]
  by_cases h1 : a / 1000 % 10 < b / 1000 % 10
  · exact digit_cons_lt (Or.inl h1)
  have e1 : a / 1000 % 10 = b / 1000 % 10 := by omega
  refine digit_cons_lt (Or.inr ⟨e1, ?_⟩)
  by_cases h2 : a / 100 % 10 < b / 100 % 10
  · exact digit_cons_lt (Or.inl h2)
  have e2 : a / 100 % 10 = b / 100 % 10 := by omega
  refine digit_cons_lt (Or.inr ⟨e2, ?_⟩)
  by_cases h3 : a / 10 % 10 < b / 10 % 10
  · exact digit_cons_lt (Or.inl h3)
  have e3 : a / 10 % 10 = b / 10 % 10 := by omega
  refine digit_cons_lt (Or.inr ⟨e3, ?_⟩)
  exact digit_cons_lt (Or.inl (by omega))

theorem yearDigits_of_lt {y : Nat} (h : y < 10000) : yearDigits y = digits4 y := by
  simp [yearDigits, h]

/-- Timestamps with four-digit years are ordered as strings the way their
fields are ordered as numbers. -/
theorem stampChars_lt {y m d hh mi ss y' m' d' hh' mi' ss' : Nat}
    (hy : y' < 10000) (hm : m' < 100) (hd : d' < 100) (hh2 : hh' < 100) (hmi : mi' < 100)
    (hss : ss' < 100)
    (h : y < y' ∨ (y = y' ∧ (m < m' ∨ (m = m' ∧ (d < d' ∨ (d = d' ∧ (hh < hh' ∨ (hh = hh' ∧
      (mi < mi' ∨ (mi = mi' ∧ ss < ss')))))))))) :
    stampChars y m d hh mi ss < stampChars y' m' d' hh' mi' ss' := by
  have hylt : y < 10000 := by omega
  simp only [stampChars, yearDigits_of_lt hy, yearDigits_of_lt hylt, List.append_assoc]
  rcases h with h | ⟨rfl, h⟩
  · exact digits4_append_lt h hy _ _
  have e4 : ∀ r1 r2 : List Char, r1 < r2 → digits4 y ++ r1 < digits4 y ++ r2 := by
    intro r1 r2 hr
    simp only [digits4, List.cons_append, List.nil_append]
    exact List.Lex.cons (List.Lex.cons (List.Lex.cons (List.Lex.cons hr)))
  refine e4 _ _ (List.Lex.cons ?_)
  rcases h with h | ⟨rfl, h⟩
  · exact digits2_append_lt h hm _ _
  refine digits2_append_same _ (List.Lex.cons ?_)
  rcases h with h | ⟨rfl, h⟩
  · exact digits2_append_lt h hd _ _
  refine digits2_append_same _ (List.Lex.cons ?_)
  rcases h with h | ⟨rfl, h⟩
  · exact digits2_append_lt h hh2 _ _
  refine digits2_append_same _ (List.Lex.cons ?_)
  rcases h with h | ⟨rfl, h⟩
  · exact digits2_append_lt h hmi _ _
  refine digits2_append_same _ (List.Lex.cons ?_)
  exact digits2_append_lt h hss _ _

theorem formatRFC3339_eq_stampChars (t : Nat) :
    formatRFC3339 t = String.mk (stampChars (civilFromDays (t / 1000000000 / 86400)).1
      (civilFromDays (t / 1000000000 / 86400)).2.1 (civilFromDays (t / 1000000000 / 86400)).2.2
      (t / 1000000000 % 86400 / 3600) (t / 1000000000 % 86400 % 3600 / 60)
      (t / 1000000000 % 86400 % 60)) := rfl

theorem formatRFC3339_same_second {t t' : Nat} (h : t / 1000000000 = t' / 1000000000) :
    formatRFC3339 t = formatRFC3339 t' := by
  rw [formatRFC3339_eq_stampChars, formatRFC3339_eq_stampChars, h]

theorem dateKey_last_day : dateKey 2932896 = 99991231 := by
  norm_num [dateKey, civilFromDays]

theorem year_lt_10000 {z : Nat} (h : z ≤ 2932896) : (civilFromDays z).1 < 10000 := by
  have hkey : dateKey z ≤ 99991231 := by
    rcases Nat.lt_or_eq_of_le h with hlt | heq
    · exact le_of_lt (dateKey_last_day ▸ dateKey_strictMono hlt)
    · rw [heq, dateKey_last_day]
  have hb := civilFromDays_bounds z
  unfold dateKey at hkey
  omega

/-- Before the year 10000, a later second has a greater timestamp. -/
theorem stampChars_seconds_lt {s s' : Nat} (h : s < s') (hy : s' < 253402300800) :
    stampChars (civilFromDays (s / 86400)).1 (civilFromDays (s / 86400)).2.1
      (civilFromDays (s / 86400)).2.2 (s % 86400 / 3600) (s % 86400 % 3600 / 60)
      (s % 86400 % 60) <
    stampChars (civilFromDays (s' / 86400)).1 (civilFromDays (s' / 86400)).2.1
      (civilFromDays (s' / 86400)).2.2 (s' % 86400 / 3600) (s' % 86400 % 3600 / 60)
      (s' % 86400 % 60) := by
  have hz : s' / 86400 ≤ 2932896 := by omega
  have hyear := year_lt_10000 hz
  have hb := civilFromDays_bounds (s / 86400)
  have hb' := civilFromDays_bounds (s' / 86400)
  apply stampChars_lt hyear (by omega) (by omega) (by omega) (by omega) (by omega)
  rcases Nat.lt_or_ge (s / 86400) (s' / 86400) with hlt | hge
  · have hk := dateKey_strictMono hlt
    unfold dateKey at hk
    omega
  · have heq : s / 86400 = s' / 86400 := by omega
    rw [heq]
    omega

theorem mk_lt_mk_of_lt {l1 l2 : List Char} (a b : String) (ha : a = String.mk l1)
    (hb : b = String.mk l2) (h : l1 < l2) : a < b := by
  subst ha hb
  exact String.lt_iff_toList_lt.mpr h

/-- Before the year 10000, a later whole second has a greater timestamp. -/
theorem formatRFC3339_lt {t t' : Nat} (h : t / 1000000000 < t' / 1000000000)
    (hy : t' / 1000000000 < year10000) : formatRFC3339 t < formatRFC3339 t' :=
  mk_lt_mk_of_lt _ _ (formatRFC3339_eq_stampChars t) (formatRFC3339_eq_stampChars t')
    (stampChars_seconds_lt h hy)

/-- Before the year 10000, timestamps are ordered as the instants they print. -/
theorem formatRFC3339_le {t t' : Nat} (h : t ≤ t') (hy : t' / 1000000000 < year10000) :
    formatRFC3339 t ≤ formatRFC3339 t' := by
  rcases Nat.lt_or_ge (t / 1000000000) (t' / 1000000000) with hlt | hge
  · exact le_of_lt (formatRFC3339_lt hlt hy)
  · have heq : t / 1000000000 = t' / 1000000000 := by omega
    rw [formatRFC3339_same_second heq]

/-! ## Facts about the sample values -/

set_option maxRecDepth 8000 in
theorem widget_wellFormed : widget.WellFormed := by decide

set_option maxRecDepth 8000 in
theorem createdTable_eq : createdTable = [createdItem] := by decide

set_option maxRecDepth 8000 in
theorem UnmarshalMap_createdItem : UnmarshalMap createdItem = .ok createdWidget := by rfl

set_option maxRecDepth 8000 in
theorem repriced_wellFormed : repriced.WellFormed := by decide

set_option maxRecDepth 8000 in
theorem updateProduct_repriced :
    updateProduct "id-1" (.ok repriced) laterOn none [createdItem] =
      (⟨200, .product repricedWidget⟩, [repricedItem]) := by decide

set_option maxRecDepth 8000 in
theorem updateProduct_sameSecond :
    updateProduct "id-1" (.ok repriced) soonAfter none [createdItem] =
      (⟨200, .product sameSecondWidget⟩, [sameSecondItem]) := by decide

/-! ## Claims -/

/-- C1: for a body that binds to a product `p`, a generated identifier `g` and a
current time `now`, when the put of the marshalled record succeeds,
`createProduct` answers 201 with the record whose `productId` is `g`, whose
`createdAt` and `updatedAt` are both `now` in RFC3339 UTC form, and whose name,
description, price, category and stock are those of `p`; the identifier and
timestamps carried by `p` are discarded. -/
theorem createProduct_created (p : Product) (g : String) (now : Time) (fault : Option String)
    (t t' : Table) (av : Item)
    (hav : MarshalMap ⟨g, p.Name, p.Description, p.Price, p.Category, p.Stock,
      formatRFC3339 now, formatRFC3339 now⟩ = .ok av)
    (hput : PutItem fault av t = .ok t') :
    createProduct (.ok p) g now fault t =
      (⟨201, .product ⟨g, p.Name, p.Description, p.Price, p.Category, p.Stock,
        formatRFC3339 now, formatRFC3339 now⟩⟩, t') := by
  simp only [MarshalMap, Except.ok.injEq] at hav
  subst hav
  simp only [createProduct, MarshalMap, hput]

theorem createProduct_created_witness :
    PutItem none [("productId", encodeString "id-1"), ("name", encodeString widget.Name),
        ("description", encodeString widget.Description),
        ("price", .N (formatShortest widget.Price)),
        ("category", encodeString widget.Category), ("stock", .N ⟨widget.Stock, 0⟩),
        ("createdAt", encodeString (formatRFC3339 1730712345000000000)),
        ("updatedAt", encodeString (formatRFC3339 1730712345000000000))] [] =
      .ok [[("productId", encodeString "id-1"), ("name", encodeString widget.Name),
        ("description", encodeString widget.Description),
        ("price", .N (formatShortest widget.Price)),
        ("category", encodeString widget.Category), ("stock", .N ⟨widget.Stock, 0⟩),
        ("createdAt", encodeString (formatRFC3339 1730712345000000000)),
        ("updatedAt", encodeString (formatRFC3339 1730712345000000000))]] ∧
    (createProduct (.ok widget) "id-1" 1730712345000000000 none []).1 =
      ⟨201, .product ⟨"id-1", "Widget", "", widget.Price, "tools", 5,
        formatRFC3339 1730712345000000000, formatRFC3339 1730712345000000000⟩⟩ :=
  ⟨rfl, congrArg Prod.fst
    (createProduct_created widget "id-1" 1730712345000000000 none [] _ _ rfl rfl)⟩

/-- C10: `getEnv key defaultValue` returns the value of the variable when it is
set to a non-empty string, and `defaultValue` when the variable is unset or set
to the empty string. -/
theorem getEnv_value_or_default (env : String → Option String) (key defaultValue : String) :
    (∀ v, env key = some v → v ≠ "" → getEnv env key defaultValue = v) ∧
    (env key = none ∨ env key = some "" → getEnv env key defaultValue = defaultValue) := by
  constructor
  · intro v hv hne
    simp [getEnv, Getenv, hv, hne]
  · rintro (h | h) <;> simp [getEnv, Getenv, h]

theorem getEnv_value_or_default_witness :
    getEnv portOnly "PORT" "8080" = "9090" ∧
    getEnv portOnly "AWS_REGION" "us-east-1" = "us-east-1" :=
  ⟨(getEnv_value_or_default portOnly "PORT" "8080").1 "9090" rfl (by decide),
   (getEnv_value_or_default portOnly "AWS_REGION" "us-east-1").2 (Or.inl rfl)⟩

/-- C7: whatever the table, a `listProducts` call that answers 200 returns the
decoding of the first ten items of the scan at most: the `products` list has at
most ten entries and `count` is the length of that list. -/
theorem listProducts_at_most_ten (fault : Option String) (t : Table)
    (h : (listProducts fault t).status = 200) :
    ∃ ps : List Product, listProducts fault t = ⟨200, .products ps ps.length⟩ ∧
      ps.length ≤ 10 ∧ ps.length ≤ t.length ∧ UnmarshalListOfMaps (t.take 10) = .ok ps := by
  cases fault with
  | some e => simp [listProducts, Scan] at h
  | none =>
    cases hu : UnmarshalListOfMaps (t.take 10) with
    | error e => simp [listProducts, Scan, hu] at h
    | ok ps =>
      refine ⟨ps, by simp [listProducts, Scan, hu], ?_, ?_, rfl⟩
      · rw [UnmarshalListOfMaps_length hu, List.length_take]
        exact Nat.min_le_left _ _
      · rw [UnmarshalListOfMaps_length hu, List.length_take]
        exact Nat.min_le_right _ _

theorem listProducts_at_most_ten_witness :
    (listProducts none elevenItems).status = 200 ∧
    ∃ ps : List Product, listProducts none elevenItems = ⟨200, .products ps ps.length⟩ ∧
      ps.length ≤ 10 ∧ ps.length ≤ elevenItems.length ∧
      UnmarshalListOfMaps (elevenItems.take 10) = .ok ps :=
  ⟨by decide, listProducts_at_most_ten none elevenItems (by decide)⟩

/-- C8: when the store call of `updateProduct` (body bound to `p`) or of
`deleteProduct` fails, for whatever reason, the handler answers
404 `Product not found` and the table is as before, so it never answers such a
failure with 500; and both store calls do fail when the store reports an error
of its own (`fault`) as well as when no item has the identifier. -/
theorem store_failure_is_not_found (productID : String) (p : Product) (now : Time)
    (fault : Option String) (t : Table) :
    (∀ e, UpdateItem fault productID
        (updateAssignments { p with UpdatedAt := formatRFC3339 now })
        (some (.attribute_exists "productId")) t = .error e →
      updateProduct productID (.ok p) now fault t = (⟨404, .error "Product not found"⟩, t)) ∧
    (∀ e, DeleteItem fault productID (some (.attribute_exists "productId")) t = .error e →
      deleteProduct productID fault t = (⟨404, .error "Product not found"⟩, t)) ∧
    (fault.isSome = true ∨ findItem productID t = none →
      (∃ e, UpdateItem fault productID
        (updateAssignments { p with UpdatedAt := formatRFC3339 now })
        (some (.attribute_exists "productId")) t = .error e) ∧
      ∃ e, DeleteItem fault productID (some (.attribute_exists "productId")) t = .error e) := by
  refine ⟨?_, ?_, ?_⟩
  · intro e h
    simp only [updateProduct, h]
  · intro e h
    simp only [deleteProduct, h]
  · intro h
    cases fault with
    | some e => exact ⟨⟨e, rfl⟩, ⟨e, rfl⟩⟩
    | none =>
      have habsent : findItem productID t = none := by simpa using h
      refine ⟨UpdateItem_of_absent _ none habsent, ?_⟩
      exact ⟨"ConditionalCheckFailedException: The conditional request failed", by
        simp [DeleteItem, conditionMet_exists_of_absent habsent]⟩

theorem store_failure_is_not_found_witness :
    updateProduct "p03" (.ok widget) 1730712345000000000 (some "RequestError: send request failed")
        elevenItems = (⟨404, .error "Product not found"⟩, elevenItems) ∧
    deleteProduct "p11" none elevenItems = (⟨404, .error "Product not found"⟩, elevenItems) ∧
    ((none : Option String).isSome = true ∨ findItem "p11" elevenItems = none) ∧
    ∃ e, DeleteItem none "p11" (some (.attribute_exists "productId")) elevenItems = .error e :=
  ⟨(store_failure_is_not_found "p03" widget 1730712345000000000
      (some "RequestError: send request failed") elevenItems).1 _ rfl,
   (store_failure_is_not_found "p11" widget 0 none elevenItems).2.1 _ rfl,
   Or.inr (by decide),
   ((store_failure_is_not_found "p11" widget 0 none elevenItems).2.2 (Or.inr (by decide))).2⟩

/-- C6: `deleteProduct` on an identifier with no item answers 404
`Product not found` and leaves the table as it was.  On an identifier with an
item, when the store reports no other error, it answers 204 with no body;
`getProduct` on that identifier right afterwards answers 404
`Product not found`, and the item under every other identifier is the one that
was there before. -/
theorem deleteProduct_not_found_or_gone (productID : String) (t : Table) :
    (∀ fault, findItem productID t = none →
      deleteProduct productID fault t = (⟨404, .error "Product not found"⟩, t)) ∧
    (∀ item, findItem productID t = some item →
      (deleteProduct productID none t).1 = ⟨204, .empty⟩ ∧
      getProduct productID none (deleteProduct productID none t).2 =
        ⟨404, .error "Product not found"⟩ ∧
      ∀ other, other ≠ productID →
        findItem other (deleteProduct productID none t).2 = findItem other t) := by
  constructor
  · intro fault h
    cases fault with
    | some e => simp [deleteProduct, DeleteItem]
    | none => simp [deleteProduct, DeleteItem, conditionMet_exists_of_absent h]
  · intro item h
    have hd : deleteProduct productID none t =
        (⟨204, .empty⟩, t.filter (fun it => !hasKey productID it)) := by
      simp [deleteProduct, DeleteItem, conditionMet_exists_of_findItem h]
    rw [hd]
    refine ⟨rfl, ?_, ?_⟩
    · simp [getProduct, GetItem, findItem_filter_self]
    · intro other hne
      exact findItem_filter_other productID other t hne

theorem deleteProduct_not_found_or_gone_witness :
    (findItem "p11" elevenItems = none ∧
      deleteProduct "p11" none elevenItems = (⟨404, .error "Product not found"⟩, elevenItems)) ∧
    (findItem "p03" elevenItems = some (bareItem "p03") ∧
      (deleteProduct "p03" none elevenItems).1 = ⟨204, .empty⟩ ∧
      getProduct "p03" none (deleteProduct "p03" none elevenItems).2 =
        ⟨404, .error "Product not found"⟩ ∧
      findItem "p04" (deleteProduct "p03" none elevenItems).2 = findItem "p04" elevenItems) :=
  ⟨⟨by decide, (deleteProduct_not_found_or_gone "p11" elevenItems).1 none (by decide)⟩,
   ⟨by decide,
    ((deleteProduct_not_found_or_gone "p03" elevenItems).2 _
      (show findItem "p03" elevenItems = some (bareItem "p03") by decide)).1,
    ((deleteProduct_not_found_or_gone "p03" elevenItems).2 _
      (show findItem "p03" elevenItems = some (bareItem "p03") by decide)).2.1,
    ((deleteProduct_not_found_or_gone "p03" elevenItems).2 _
      (show findItem "p03" elevenItems = some (bareItem "p03") by decide)).2.2 "p04"
        (by decide)⟩⟩

/-- C2: round trip.  When `createProduct` on a well-formed payload answers 201
with record `r`, `getProduct` with `r.productId` on the resulting table, with no
operation in between and no store error, answers 200 with a record equal to `r`
in all eight fields. -/
theorem create_then_get (p : Product) (hp : p.WellFormed) (g : String) (now : Time)
    (fault : Option String) (t t' : Table) (r : Product)
    (h : createProduct (.ok p) g now fault t = (⟨201, .product r⟩, t')) :
    getProduct r.ProductID none t' = ⟨200, .product r⟩ := by
  obtain ⟨hr, av, hm, hkey, ht⟩ := createProduct_ok h
  have hwf : r.WellFormed := by
    rw [hr]; exact hp
  have hid : r.ProductID = g := by rw [hr]
  have hfind : findItem g t' = some av := by
    rw [ht, findItem_append_singleton, findItem_filter_self]
    simp [hkey]
  simp only [getProduct, GetItem, hid, hfind, UnmarshalMap_MarshalMap hwf hm]

theorem create_then_get_witness :
    widget.WellFormed ∧
    getProduct "id-1" none (createProduct (.ok widget) "id-1" 1730712345000000000 none []).2 =
      ⟨200, .product ⟨"id-1", "Widget", "", widget.Price, "tools", 5,
        formatRFC3339 1730712345000000000, formatRFC3339 1730712345000000000⟩⟩ :=
  ⟨widget_wellFormed, create_then_get widget widget_wellFormed "id-1" 1730712345000000000 none [] _
    ⟨"id-1", "Widget", "", widget.Price, "tools", 5,
        formatRFC3339 1730712345000000000, formatRFC3339 1730712345000000000⟩ rfl⟩

/-- C4: `updateProduct` keeps the identifier and the creation time.  When the
table holds record `r` under `productID` and `updateProduct` answers 200 with
record `r'`, then `r'.productId = r.productId = productID` and
`r'.createdAt = r.createdAt`, whatever the payload carries in these fields; `r'`
is the record the table then holds under `productID`, and the item under every
other identifier is the one that was there before. -/
theorem updateProduct_keeps_id_and_createdAt (productID : String) (p : Product) (now : Time)
    (fault : Option String) (t t' : Table) (item : Item) (r r' : Product)
    (hitem : findItem productID t = some item) (hr : UnmarshalMap item = .ok r)
    (h : updateProduct productID (.ok p) now fault t = (⟨200, .product r'⟩, t')) :
    r'.ProductID = productID ∧ r.ProductID = productID ∧ r'.CreatedAt = r.CreatedAt ∧
    (∃ item', findItem productID t' = some item' ∧ UnmarshalMap item' = .ok r') ∧
    ∀ other, other ≠ productID → findItem other t' = findItem other t := by
  obtain ⟨-, item2, hf, hu, ht⟩ := updateProduct_ok h
  rw [hitem] at hf
  cases hf
  have hkey := hasKey_of_findItem hitem
  have hnew := hasKey_applySets_updateAssignments productID
    { p with UpdatedAt := formatRFC3339 now } item hkey
  obtain ⟨hid, hcr⟩ := UnmarshalMap_fields hr
  obtain ⟨hid2, hcr2⟩ := UnmarshalMap_fields hu
  obtain ⟨ha1, -, -, -, -, -, ha7, -⟩ :=
    attr_applySets_updateAssignments { p with UpdatedAt := formatRFC3339 now } item
  rw [ha1] at hid2
  rw [ha7] at hcr2
  rw [attr_productId_of_hasKey hkey] at hid hid2
  simp only [decodeString, Except.ok.injEq] at hid hid2
  rw [hcr] at hcr2
  simp only [Except.ok.injEq] at hcr2
  refine ⟨hid2.symm, hid.symm, hcr2.symm, ⟨_, ?_, hu⟩, ?_⟩
  · rw [ht]
    exact findItem_map_replace_self productID t _ item hnew hitem
  · intro other hne
    rw [ht]
    exact findItem_map_replace_other productID other t _ hnew hne

theorem updateProduct_keeps_id_and_createdAt_witness :
    (findItem "id-1" [createdItem] = some createdItem ∧
      UnmarshalMap createdItem = .ok createdWidget ∧
      updateProduct "id-1" (.ok repriced) laterOn none [createdItem] =
        (⟨200, .product repricedWidget⟩, [repricedItem])) ∧
    (repricedWidget.ProductID = "id-1" ∧ createdWidget.ProductID = "id-1" ∧
      repricedWidget.CreatedAt = createdWidget.CreatedAt ∧
      (∃ item', findItem "id-1" [repricedItem] = some item' ∧
        UnmarshalMap item' = .ok repricedWidget) ∧
      ∀ other, other ≠ "id-1" → findItem other [repricedItem] = findItem other [createdItem]) :=
  ⟨⟨by decide, UnmarshalMap_createdItem, updateProduct_repriced⟩,
   updateProduct_keeps_id_and_createdAt "id-1" repriced laterOn none [createdItem]
     [repricedItem] createdItem createdWidget repricedWidget (by decide)
     UnmarshalMap_createdItem updateProduct_repriced⟩

/-- C5: update is idempotent on content.  When `updateProduct` with payload `p`
answers 200 with record `r1`, applying the same payload again right away, at any
time `now2` and with no store error, answers 200 with the record that equals
`r1` in every field other than `updatedAt` (which is `now2` in RFC3339 form),
and that record is the one the table then holds under the identifier. -/
theorem updateProduct_twice (productID : String) (p : Product) (now1 now2 : Time)
    (fault : Option String) (t t1 : Table) (r1 : Product)
    (h1 : updateProduct productID (.ok p) now1 fault t = (⟨200, .product r1⟩, t1)) :
    ∃ t2, updateProduct productID (.ok p) now2 none t1 =
        (⟨200, .product { r1 with UpdatedAt := formatRFC3339 now2 }⟩, t2) ∧
      getProduct productID none t2 =
        ⟨200, .product { r1 with UpdatedAt := formatRFC3339 now2 }⟩ := by
  obtain ⟨-, item, hf, hu, ht⟩ := updateProduct_ok h1
  have hkey := hasKey_of_findItem hf
  have hkey1 := hasKey_applySets_updateAssignments productID
    { p with UpdatedAt := formatRFC3339 now1 } item hkey
  have hf1 : findItem productID t1 =
      some (applySets (updateAssignments { p with UpdatedAt := formatRFC3339 now1 }) item) := by
    rw [ht]
    exact findItem_map_replace_self productID t _ item hkey1 hf
  have hkey2 := hasKey_applySets_updateAssignments productID
    { p with UpdatedAt := formatRFC3339 now2 } _ hkey1
  obtain ⟨ha1, -, -, -, -, -, ha7, -⟩ :=
    attr_applySets_updateAssignments { p with UpdatedAt := formatRFC3339 now1 } item
  have hu2 : UnmarshalMap (applySets (updateAssignments { p with UpdatedAt := formatRFC3339 now2 })
      (applySets (updateAssignments { p with UpdatedAt := formatRFC3339 now1 }) item)) =
      .ok { r1 with UpdatedAt := formatRFC3339 now2 } := by
    rw [UnmarshalMap_applySets] at hu ⊢
    rw [ha1, ha7]
    cases d1 : decodeString (attr "productId" item) <;>
    cases d4 : decodeFloat64 (some (.N (formatF6 p.Price))) <;>
    cases d6 : decodeInt (some (.N ⟨p.Stock, 0⟩)) <;>
    cases d7 : decodeString (attr "createdAt" item) <;>
    simp [d1, d4, d6, d7, bind, Except.bind, pure, Except.pure] at hu ⊢
    subst hu
    simp
  refine ⟨_, updateProduct_of_found hf1 hu2, ?_⟩
  have hf2 := findItem_map_replace_self productID t1 _ _ hkey2 hf1
  simp only [getProduct, GetItem, hf2, hu2]

theorem updateProduct_twice_witness :
    updateProduct "id-1" (.ok repriced) laterOn none [createdItem] =
        (⟨200, .product repricedWidget⟩, [repricedItem]) ∧
    ∃ t2, updateProduct "id-1" (.ok repriced) hourLater none [repricedItem] =
        (⟨200, .product { repricedWidget with UpdatedAt := formatRFC3339 hourLater }⟩, t2) ∧
      getProduct "id-1" none t2 =
        ⟨200, .product { repricedWidget with UpdatedAt := formatRFC3339 hourLater }⟩ :=
  ⟨updateProduct_repriced,
   updateProduct_twice "id-1" repriced laterOn hourLater none [createdItem] [repricedItem]
     repricedWidget updateProduct_repriced⟩

/-- C3, at a failing input: `repriced` is a well-formed payload with price
1.0009765625 and `createdTable` holds a record under `id-1`, yet
`updateProduct` answers 200 with a record whose price is the `float64` nearest
to 1.000977 (the price printed by `%f` with six decimals), not the price of the
payload; the other four mutable fields are those of the payload. -/
theorem updateProduct_price_six_decimals :
    repriced.WellFormed ∧ createdTable = [createdItem] ∧
    UnmarshalMap createdItem = .ok createdWidget ∧
    updateProduct "id-1" (.ok repriced) laterOn none createdTable =
      (⟨200, .product repricedWidget⟩, [repricedItem]) ∧
    repricedWidget.Price ≠ repriced.Price ∧
    repricedWidget.Name = repriced.Name ∧ repricedWidget.Description = repriced.Description ∧
    repricedWidget.Category = repriced.Category ∧ repricedWidget.Stock = repriced.Stock :=
  ⟨repriced_wellFormed, createdTable_eq, UnmarshalMap_createdItem,
   createdTable_eq ▸ updateProduct_repriced, by decide, rfl, rfl, rfl, rfl⟩

/-- C9, counterexample: `createdTable` holds a record whose `updatedAt` was
written at `createTime`; `updateProduct` half a second later answers 200 with a
record whose `updatedAt` is the same string, not a greater one. -/
theorem updatedAt_not_strictly_greater :
    findItem "id-1" [createdItem] = some createdItem ∧
    UnmarshalMap createdItem = .ok createdWidget ∧
    createdWidget.UpdatedAt = formatRFC3339 createTime ∧
    createTime < soonAfter ∧
    updateProduct "id-1" (.ok repriced) soonAfter none [createdItem] =
      (⟨200, .product sameSecondWidget⟩, [sameSecondItem]) ∧
    sameSecondWidget.UpdatedAt = createdWidget.UpdatedAt ∧
    ¬ createdWidget.UpdatedAt < sameSecondWidget.UpdatedAt :=
  ⟨by decide, UnmarshalMap_createdItem, by decide, by decide, updateProduct_sameSecond,
   rfl, fun h => absurd h (lt_irrefl _)⟩

/-- C9, amended: when the table holds under `productID` a record `r` whose
`updatedAt` was written at time `wrote`, and `updateProduct` at a later time
`now` (before the year 10000) answers 200 with record `r'`, then
`r'.updatedAt` is `now` in RFC3339 UTC form, it is greater than or equal to
`r.updatedAt` as a string, and strictly greater when `now` falls in a later
whole second than `wrote`. -/
theorem updatedAt_monotone (productID : String) (p : Product) (wrote now : Time)
    (fault : Option String) (t t' : Table) (item : Item) (r r' : Product)
    (hitem : findItem productID t = some item) (hr : UnmarshalMap item = .ok r)
    (hwrote : r.UpdatedAt = formatRFC3339 wrote) (hlater : wrote < now)
    (hyear : now / 1000000000 < year10000)
    (h : updateProduct productID (.ok p) now fault t = (⟨200, .product r'⟩, t')) :
    r'.UpdatedAt = formatRFC3339 now ∧ r.UpdatedAt ≤ r'.UpdatedAt ∧
    (wrote / 1000000000 < now / 1000000000 → r.UpdatedAt < r'.UpdatedAt) := by
  obtain ⟨-, item2, hitem2, hu, -⟩ := updateProduct_ok h
  have hsame : item2 = item := Option.some.inj (hitem2.symm.trans hitem)
  have hheld : UnmarshalMap item2 = .ok r := hsame ▸ hr
  clear hheld
  obtain ⟨-, -, -, hup, -, -⟩ := UnmarshalMap_applySets_fields hu
  have hup2 : r'.UpdatedAt = formatRFC3339 now := hup
  rw [hup2, hwrote]
  exact ⟨rfl, formatRFC3339_le (le_of_lt hlater) hyear, fun hs => formatRFC3339_lt hs hyear⟩

theorem updatedAt_monotone_witness :
    (findItem "id-1" [createdItem] = some createdItem ∧
      UnmarshalMap createdItem = .ok createdWidget ∧
      createdWidget.UpdatedAt = formatRFC3339 createTime ∧ createTime < laterOn ∧
      laterOn / 1000000000 < year10000 ∧
      updateProduct "id-1" (.ok repriced) laterOn none [createdItem] =
        (⟨200, .product repricedWidget⟩, [repricedItem])) ∧
    (repricedWidget.UpdatedAt = formatRFC3339 laterOn ∧
      createdWidget.UpdatedAt ≤ repricedWidget.UpdatedAt ∧
      (createTime / 1000000000 < laterOn / 1000000000 →
        createdWidget.UpdatedAt < repricedWidget.UpdatedAt)) :=
  ⟨⟨by decide, UnmarshalMap_createdItem, by decide, by decide, by decide, updateProduct_repriced⟩,
   updatedAt_monotone "id-1" repriced createTime laterOn none [createdItem] [repricedItem]
     createdItem createdWidget repricedWidget (by decide) UnmarshalMap_createdItem (by decide)
     (by decide) (by decide) updateProduct_repriced⟩

end ProductService
